import Mathlib

/-!
Verification of the WaveChat backend routing core (src/index.js, src/db.js).

Identifiers are modelled as JavaScript strings, i.e. lists of characters
(`Str`).  Every definition below is a direct shallow embedding of a concrete
piece of the source:

* `clean`          — the arrow function `(id) => id.toString().replace(/\D/g, '').slice(-10)`
                     appearing at index.js lines 167, 199, 399, 542, 615;
* `splitUS`/`joinUS` — JavaScript `String.prototype.split('_')` / `Array.prototype.join('_')`;
* `strLt`/`strLe`  — the default JavaScript string comparison (code-unit
                     lexicographic), which `Array.prototype.sort()` uses;
* `sortLe`         — a sort producing the ascending order of its comparator;
                     since the comparison is a total antisymmetric order, the
                     sorted permutation is unique, so this agrees with the
                     result of the in-place JS sort;
* `deriveConversationKey` — index.js lines 403-410 (send_message);
* `historyNormChatId`     — index.js line 168 (GET /api/messages/:chatId).
-/

abbrev Str := List Char

/-- `(id) => id.toString().replace(/\D/g, '').slice(-10)`: drop every
non-digit character, then keep the trailing 10 characters (the whole string
when fewer remain). -/
def clean (id : Str) : Str :=
  let digits := id.filter Char.isDigit
  digits.drop (digits.length - 10)

/-- JavaScript `s.split('_')`: `""` splits to `[""]`, separators at the ends
produce empty parts. -/
def splitUS : Str → List Str
  | [] => [[]]
  | c :: cs =>
    if c = '_' then [] :: splitUS cs
    else
      match splitUS cs with
      | [] => [[c]]
      | t :: ts => (c :: t) :: ts

/-- JavaScript `parts.join('_')`. -/
def joinUS : List Str → Str
  | [] => []
  | [s] => s
  | s :: rest => s ++ '_' :: joinUS rest

/-- JavaScript default string comparison `a < b` (lexicographic by code
unit; all characters appearing here are ASCII, where code units and code
points coincide). -/
def strLt : Str → Str → Bool
  | _, [] => false
  | [], _ :: _ => true
  | a :: as, b :: bs => if a = b then strLt as bs else decide (a < b)

/-- `a <= b` in the JavaScript string order. -/
def strLe (x y : Str) : Bool := !(strLt y x)

/-- Insert into a list sorted ascending by `le`. -/
def insertLe {α : Type} (le : α → α → Bool) (x : α) : List α → List α
  | [] => [x]
  | y :: ys => if le x y then x :: y :: ys else y :: insertLe le x ys

/-- Sort ascending by `le`; stands in for JavaScript
`Array.prototype.sort()` (see the header comment). -/
def sortLe {α : Type} (le : α → α → Bool) : List α → List α
  | [] => []
  | x :: xs => insertLe le x (sortLe le xs)

/-- `array.sort()` on an array of strings. -/
def sortStrs : List Str → List Str := sortLe strLe

/-- index.js lines 403-410: the conversation key used by `send_message`.
Any id containing `'_'` is split, each part cleaned, the parts sorted and
re-joined; an id without `'_'` is kept verbatim (group id). -/
def deriveConversationKey (rawId : Str) : Str :=
  if '_' ∈ rawId then joinUS (sortStrs ((splitUS rawId).map clean))
  else rawId

/-- index.js line 168: the normalized chat id computed by the
message-history route `GET /api/messages/:chatId` (no `includes('_')`
guard there — the id is always split, cleaned, sorted and re-joined). -/
def historyNormChatId (chatId : Str) : Str :=
  joinUS (sortStrs ((splitUS chatId).map clean))

/-- index.js lines 355-363, the identity part of the `register` handler:
`if (!userId) return;` then `socket.join(userId)`, and additionally
`socket.join(normalized)` when `normalized.length === 10 && normalized !==
userId`.  Returns, in join order, the rooms the connection joins.  (The
subsequent group auto-joins of lines 366-386 are a separate concern and are
not part of this identity registration.) -/
def registerIdentityRooms (userId : Str) : List Str :=
  if userId = [] then []
  else if (clean userId).length = 10 ∧ clean userId ≠ userId then
    [userId, clean userId]
  else [userId]

/-- A row of `groups_table` as read by `send_message`
(`SELECT type, createdBy FROM groups_table WHERE id = ?`). -/
structure GroupRow where
  id : Str
  type : Str
  createdBy : Str
deriving DecidableEq

/-- A row of `group_members`. -/
structure MemberRow where
  groupId : Str
  userId : Str
  role : Str
deriving DecidableEq

/-- The persisted tables that `send_message` consults.  `db.get` returns the
first matching row, modelled by `List.find?`. -/
structure ServerState where
  groups : List GroupRow
  members : List MemberRow
deriving DecidableEq

/-- The record inserted into `messages` (index.js lines 413-423), together
with the id the store assigned. -/
structure MessageRow where
  id : Nat
  chatId : Str
  sender : Str
  text : Str
deriving DecidableEq

/-- Everything one `send_message` dispatch does that is visible outside the
handler: the stored row (if the insert succeeded), the rooms the sending
socket joined, and — in order — the rooms that received a
`receive_message` emission. -/
structure DispatchResult where
  stored : Option MessageRow
  joins : List Str
  emissions : List Str
deriving DecidableEq

/-- index.js line 428 and 435: `normParts.find(p => p !== clean(sender))`,
then `if (normReceiver) io.to(normReceiver).emit(...)` — the first cleaned
part differing from the cleaned sender is emitted to, unless it is the
empty (falsy) string. -/
def receiverEmit (p0 p1 sender : Str) : List Str :=
  match ([clean p0, clean p1]).find? (fun p => p != clean sender) with
  | some r => if r = [] then [] else [r]
  | none => []

/-- index.js lines 432-436, the private-chat fanout: the raw chat room, the
reversed-parts room, the receiver key (when present and truthy), and the
cleaned sender. -/
def privateEmits (chatId p0 p1 sender : Str) : List Str :=
  [chatId, p1 ++ '_' :: p0] ++ receiverEmit p0 p1 sender ++ [clean sender]

/-- index.js lines 467-475, the `safeEmit` helper of the group branch:
skip falsy targets, emit to the raw target, and when its cleaned form is
truthy also to the cleaned and `'+'`-prefixed rooms. -/
def safeEmitRooms (targetId : Str) : List Str :=
  if targetId = [] then []
  else if clean targetId = [] then [targetId]
  else [targetId, clean targetId, '+' :: clean targetId]

/-- index.js lines 449-453: before the permission check, when the group row
exists and its `createdBy` is truthy, the message is emitted to the raw
creator id and to its cleaned form. -/
def creatorPreEmits (groupInfo : Option GroupRow) : List Str :=
  match groupInfo with
  | some g => if g.createdBy = [] then [] else [g.createdBy, clean g.createdBy]
  | none => []

/-- index.js lines 455-461: a message into a `private`-type group is
blocked unless the first `group_members` row for `(chatId, clean sender)`
has role `'admin'`. -/
def isBlocked (st : ServerState) (chatId sender : Str)
    (groupInfo : Option GroupRow) : Bool :=
  match groupInfo with
  | some g =>
    if g.type = ('p' :: 'r' :: 'i' :: 'v' :: 'a' :: 't' :: 'e' :: []) then
      match st.members.find?
          (fun m => m.groupId == chatId && m.userId == clean sender) with
      | some m => !(m.role == ('a' :: 'd' :: 'm' :: 'i' :: 'n' :: []))
      | none => true
    else false
  | none => false

/-- index.js lines 437-495, the group branch after the forced join: creator
pre-emissions, then either the blocked early return (line 459) or the group
room and sender emissions.  Line 484 reads the identifier `groupInfo`,
which is a `const` scoped to the `try` block of lines 445-462; outside that
block the read throws a ReferenceError that the outer `catch` of line 496
swallows, so the creator `safeEmit` of line 485 and the member fanout of
lines 489-494 never execute. -/
def groupEmits (st : ServerState) (chatId sender : Str) : List Str :=
  if isBlocked st chatId sender (st.groups.find? (fun g => g.id == chatId)) then
    creatorPreEmits (st.groups.find? (fun g => g.id == chatId))
  else
    creatorPreEmits (st.groups.find? (fun g => g.id == chatId)) ++ [chatId] ++
      safeEmitRooms sender

/-- index.js lines 425-495: classification of the dispatch by the shape of
`safeChatId.split('_')` — exactly two parts means private fanout, anything
else (including three or more parts) means the group branch, whose first
action (line 441) force-joins the sending socket to the raw chat room.
Returns `(joined rooms, emission rooms)`. -/
def dispatchRooms (st : ServerState) (chatId sender : Str) :
    List Str × List Str :=
  match splitUS chatId with
  | [p0, p1] => ([], privateEmits chatId p0 p1 sender)
  | _ => ([chatId], groupEmits st chatId sender)

/-- index.js lines 389-499, the whole `send_message` handler: validate
(falsy chatId or sender ⇒ silent drop), derive the conversation key, insert
into `messages` (a failing insert jumps to the outer catch, which only
logs — nothing later runs), then fan out. -/
def sendMessage (st : ServerState) (persistOk : Bool) (lastID : Nat)
    (chatId sender text : Str) : DispatchResult :=
  if chatId = [] ∨ sender = [] then ⟨none, [], []⟩
  else if persistOk then
    let r := dispatchRooms st chatId sender
    ⟨some ⟨lastID, deriveConversationKey chatId, sender, text⟩, r.1, r.2⟩
  else ⟨none, [], []⟩

/-- One entry of `groupData.members` as `create_group` consumes it. -/
structure MemberSpec where
  id : Str
  isAdmin : Bool
deriving DecidableEq

/-- A row of `group_members` as written by `create_group`. -/
structure MembershipRow where
  groupId : Str
  userId : Str
  role : Str
deriving DecidableEq

/-- index.js line 548: `m.isAdmin ? 'admin' : 'member'`. -/
def memberRole (m : MemberSpec) : Str :=
  if m.isAdmin then 'a' :: 'd' :: 'm' :: 'i' :: 'n' :: []
  else 'm' :: 'e' :: 'm' :: 'b' :: 'e' :: 'r' :: []

/-- index.js lines 532-568, the membership rows `create_group` inserts: one
row per supplied member (role from its `isAdmin` flag), and afterwards —
when `createdBy` is truthy and no supplied member cleans to the creator's
key — an explicit `(groupId, clean(createdBy), 'admin')` row. -/
def createGroupRows (safeId createdBy : Str) (members : List MemberSpec) :
    List MembershipRow :=
  if createdBy = [] then
    members.map (fun m => ⟨safeId, clean m.id, memberRole m⟩)
  else if members.any (fun m => clean m.id == clean createdBy) then
    members.map (fun m => ⟨safeId, clean m.id, memberRole m⟩)
  else
    members.map (fun m => ⟨safeId, clean m.id, memberRole m⟩) ++
      [⟨safeId, clean createdBy, 'a' :: 'd' :: 'm' :: 'i' :: 'n' :: []⟩]

/-- A row of the `status` table.  Both time columns are TEXT as the store
actually holds them: `timestamp` is SQLite's `CURRENT_TIMESTAMP` default,
"YYYY-MM-DD HH:MM:SS"; `expiresAt` is the JavaScript
`new Date(...).toISOString()` text written by `POST /api/status` (index.js
line 504), "YYYY-MM-DDTHH:MM:SS.sssZ" — note the differing separator at
index 10.  The DATETIME column has NUMERIC affinity and neither text
converts to a number, so SQL comparisons on these columns are bytewise
TEXT comparisons (BINARY collation), which on ASCII text is exactly
`strLt`. -/
structure StatusRow where
  id : Nat
  userId : Str
  content : Str
  timestamp : Str
  expiresAt : Str
deriving DecidableEq

/-- Comparator realising `ORDER BY timestamp DESC` under the store's
bytewise TEXT comparison. -/
def statusLe (a b : StatusRow) : Bool := !(strLt a.timestamp b.timestamp)

/-- index.js line 525, `GET /api/status`:
`SELECT * FROM status WHERE expiresAt > CURRENT_TIMESTAMP ORDER BY timestamp DESC`.
`now` is the text SQLite substitutes for `CURRENT_TIMESTAMP`
("YYYY-MM-DD HH:MM:SS"), and the WHERE clause is the bytewise TEXT
comparison `now < expiresAt`.  A pure read — the stored rows are not
modified. -/
def getStatusRows (rows : List StatusRow) (now : Str) : List StatusRow :=
  sortLe statusLe (rows.filter (fun r => strLt now r.expiresAt))

/-- index.js lines 502-520, `POST /api/status`: append one row.  The route
computes `expiresAt` in JavaScript as
`new Date(Date.now() + 24 * 60 * 60 * 1000).toISOString()` — ISO-8601 text
with a `'T'` separator and trailing `'Z'` — while the store fills
`timestamp` with its own space-separated `CURRENT_TIMESTAMP` text; the two
formatted texts are taken as arguments here.  This is the only operation
that writes the `status` table; no operation deletes from it. -/
def postStatusRows (rows : List StatusRow) (nextId : Nat)
    (userId content timestampText expiresAtText : Str) : List StatusRow :=
  rows ++ [⟨nextId, userId, content, timestampText, expiresAtText⟩]

/-- The decimal value of the `len` characters of `s` starting at index `i`. -/
def natAt (s : Str) (i len : Nat) : Nat :=
  ((s.drop i).take len).foldl (fun n c => n * 10 + (c.toNat - 48)) 0

/-- Specification-side reading of a stored time text as a chronological
instant.  Both formats in play — ISO "YYYY-MM-DDTHH:MM:SS.sssZ" and SQLite
"YYYY-MM-DD HH:MM:SS" — place year, month, day, hour, minute and second at
the same character positions (only the separator at index 10 differs), so
the UTC instant a text denotes is read off positionally. -/
def specInstant (s : Str) : List Nat :=
  [natAt s 0 4, natAt s 5 2, natAt s 8 2, natAt s 11 2, natAt s 14 2,
   natAt s 17 2]

/-- Lexicographic comparison of instant fields. -/
def natListLt : List Nat → List Nat → Bool
  | _, [] => false
  | [], _ :: _ => true
  | a :: as, b :: bs =>
    if a < b then true else if b < a then false else natListLt as bs

/-- Specification-side "strictly earlier instant" on stored time texts. -/
def specChronoLt (a b : Str) : Bool := natListLt (specInstant a) (specInstant b)

/-- Modelled from the spec (section 4.4 step 3 and section 7 item 2): a
persistence failure "is reported to the caller as a delivery failure".  The
handler's only channel back to the triggering caller is a socket emission
to one of the caller's alias rooms, so the spec's sentence holds of a
dispatch exactly when some emission targets the sender's raw id or cleaned
key. -/
def specFailureReportedToCaller (res : DispatchResult) (sender : Str) : Bool :=
  res.emissions.any (fun r => r == sender || r == clean sender)

/-! ### Helper lemmas about the primitives -/

theorem splitUS_no_sep (s : Str) (h : '_' ∉ s) : splitUS s = [s] := by
  induction s with
  | nil => rfl
  | cons c cs ih =>
    have hc : c ≠ '_' := by
      intro e
      exact h (e ▸ List.mem_cons_self c cs)
    have hcs : '_' ∉ cs := fun m => h (List.mem_cons_of_mem _ m)
    simp only [splitUS, if_neg hc, ih hcs]

theorem mem_us_of_splitUS_length (s : Str) (h : 2 ≤ (splitUS s).length) :
    '_' ∈ s := by
  by_contra hm
  rw [splitUS_no_sep s hm] at h
  simp at h

theorem strLt_asymm (x : Str) : ∀ y, strLt x y = true → strLt y x = false := by
  induction x with
  | nil =>
    intro y hy
    cases y with
    | nil => simp [strLt] at hy
    | cons b bs => simp [strLt]
  | cons a as ih =>
    intro y hy
    cases y with
    | nil => simp [strLt] at hy
    | cons b bs =>
      by_cases hab : a = b
      · subst hab
        simp only [strLt, if_pos rfl] at hy ⊢
        exact ih bs hy
      · have hba : b ≠ a := Ne.symm hab
        simp only [strLt, if_neg hab, decide_eq_true_eq] at hy
        simp only [strLt, if_neg hba, decide_eq_false_iff_not]
        exact lt_asymm hy

theorem strLt_total_eq (x : Str) :
    ∀ y, strLt x y = false → strLt y x = false → x = y := by
  induction x with
  | nil =>
    intro y h1 _h2
    cases y with
    | nil => rfl
    | cons b bs => simp [strLt] at h1
  | cons a as ih =>
    intro y h1 h2
    cases y with
    | nil => simp [strLt] at h2
    | cons b bs =>
      by_cases hab : a = b
      · subst hab
        simp only [strLt, if_pos rfl] at h1 h2
        rw [ih bs h1 h2]
      · have hba : b ≠ a := Ne.symm hab
        simp only [strLt, if_neg hab, decide_eq_false_iff_not] at h1
        simp only [strLt, if_neg hba, decide_eq_false_iff_not] at h2
        rcases lt_or_gt_of_ne hab with h | h
        · exact absurd h h1
        · exact absurd h h2

theorem sortStrs_pair (x y : Str) :
    sortStrs [x, y] = if strLe x y then [x, y] else [y, x] := by
  simp [sortStrs, sortLe, insertLe]

theorem sortStrs_pair_comm (x y : Str) : sortStrs [x, y] = sortStrs [y, x] := by
  rw [sortStrs_pair, sortStrs_pair]
  by_cases h1 : strLe x y
  · by_cases h2 : strLe y x
    · have hxy : x = y := by
        have e1 : strLt y x = false := by
          simpa [strLe] using h1
        have e2 : strLt x y = false := by
          simpa [strLe] using h2
        exact strLt_total_eq x y e2 e1
      rw [hxy]
    · simp [h1, h2]
  · by_cases h2 : strLe y x
    · simp [h1, h2]
    · exfalso
      have e1 : strLt y x = true := by
        have := h1
        simp [strLe] at this
        exact this
      have e2 : strLt x y = true := by
        have := h2
        simp [strLe] at this
        exact this
      have := strLt_asymm x y e2
      rw [this] at e1
      exact Bool.false_ne_true e1

theorem joinUS_pair (x y : Str) : joinUS [x, y] = x ++ '_' :: y := rfl

theorem mem_insertLe {α : Type} (le : α → α → Bool) (a x : α) (l : List α) :
    a ∈ insertLe le x l ↔ a = x ∨ a ∈ l := by
  induction l with
  | nil => simp [insertLe]
  | cons y ys ih =>
    simp only [insertLe]
    by_cases h : le x y = true
    · rw [if_pos h]
      simp [List.mem_cons]
    · rw [if_neg h]
      simp only [List.mem_cons, ih]
      tauto

theorem mem_sortLe {α : Type} (le : α → α → Bool) (a : α) (l : List α) :
    a ∈ sortLe le l ↔ a ∈ l := by
  induction l with
  | nil => simp [sortLe]
  | cons x xs ih => simp [sortLe, mem_insertLe, ih, List.mem_cons]

theorem pairwise_insertLe {α : Type} (le : α → α → Bool) (R : α → α → Prop)
    (hle : ∀ a b, le a b = true → R a b)
    (htot : ∀ a b, le a b = false → R b a)
    (htrans : ∀ a b c, R a b → R b c → R a c)
    (x : α) :
    ∀ l : List α, List.Pairwise R l → List.Pairwise R (insertLe le x l) := by
  intro l
  induction l with
  | nil =>
    intro _
    simp [insertLe]
  | cons y ys ih =>
    intro hp
    rcases List.pairwise_cons.mp hp with ⟨hy, hys⟩
    simp only [insertLe]
    by_cases h : le x y = true
    · rw [if_pos h]
      refine List.pairwise_cons.mpr ⟨?_, hp⟩
      intro z hz
      rcases List.mem_cons.mp hz with rfl | hz2
      · exact hle x z h
      · exact htrans x y z (hle x y h) (hy z hz2)
    · rw [if_neg h]
      refine List.pairwise_cons.mpr ⟨?_, ih hys⟩
      intro z hz
      rcases (mem_insertLe le z x ys).mp hz with rfl | hz2
      · exact htot z y (eq_false_of_ne_true h)
      · exact hy z hz2

theorem pairwise_sortLe {α : Type} (le : α → α → Bool) (R : α → α → Prop)
    (hle : ∀ a b, le a b = true → R a b)
    (htot : ∀ a b, le a b = false → R b a)
    (htrans : ∀ a b c, R a b → R b c → R a c) :
    ∀ l : List α, List.Pairwise R (sortLe le l) := by
  intro l
  induction l with
  | nil => simp [sortLe]
  | cons x xs ih => exact pairwise_insertLe le R hle htot htrans x _ ih

theorem receiverEmit_eq (p0 p1 sender : Str) :
    receiverEmit p0 p1 sender =
      (if clean p0 ≠ clean sender then
        (if clean p0 = [] then [] else [clean p0])
       else if clean p1 ≠ clean sender then
        (if clean p1 = [] then [] else [clean p1])
       else []) := by
  unfold receiverEmit
  by_cases h0 : clean p0 = clean sender
  · have b0 : (clean p0 != clean sender) = false := by simp [h0]
    by_cases h1 : clean p1 = clean sender
    · have b1 : (clean p1 != clean sender) = false := by simp [h1]
      simp [List.find?, b0, b1, h0, h1]
    · have b1 : (clean p1 != clean sender) = true := by simp [h1]
      simp [List.find?, b0, b1, h0, h1]
  · have b0 : (clean p0 != clean sender) = true := by simp [h0]
    simp [List.find?, b0, h0]

/-! ### Claim theorems -/

/-- Claim C1: for a two-part private chat id, the conversation-key
derivation used by `send_message` and the one used by the message-history
lookup are commutative in the participant order, agree with each other, and
produce the two cleaned participant keys sorted ascending by the
lexicographic string order, re-joined with `'_'`. -/
theorem derive_key_commutative (s t a b : Str)
    (hs : splitUS s = [a, b]) (ht : splitUS t = [b, a]) :
    deriveConversationKey s = deriveConversationKey t ∧
    historyNormChatId s = historyNormChatId t ∧
    deriveConversationKey s = historyNormChatId s ∧
    deriveConversationKey s =
      (if strLe (clean a) (clean b) then clean a ++ '_' :: clean b
       else clean b ++ '_' :: clean a) := by
  have hms : '_' ∈ s := by
    apply mem_us_of_splitUS_length
    rw [hs]
    simp
  have hmt : '_' ∈ t := by
    apply mem_us_of_splitUS_length
    rw [ht]
    simp
  have es : deriveConversationKey s = joinUS (sortStrs [clean a, clean b]) := by
    simp [deriveConversationKey, hms, hs]
  have et : deriveConversationKey t = joinUS (sortStrs [clean b, clean a]) := by
    simp [deriveConversationKey, hmt, ht]
  have hhs : historyNormChatId s = joinUS (sortStrs [clean a, clean b]) := by
    simp [historyNormChatId, hs]
  have hht : historyNormChatId t = joinUS (sortStrs [clean b, clean a]) := by
    simp [historyNormChatId, ht]
  refine ⟨?_, ?_, ?_, ?_⟩
  · rw [es, et, sortStrs_pair_comm]
  · rw [hhs, hht, sortStrs_pair_comm]
  · rw [es, hhs]
  · rw [es, sortStrs_pair]
    by_cases h : strLe (clean a) (clean b)
    · rw [if_pos h, if_pos h, joinUS_pair]
    · rw [if_neg h, if_neg h, joinUS_pair]

/-- Witness for C1 at the concrete pair "30_10" / "10_30". -/
theorem derive_key_commutative_witness :
    deriveConversationKey ("30_10".data) = deriveConversationKey ("10_30".data) ∧
    historyNormChatId ("30_10".data) = historyNormChatId ("10_30".data) ∧
    deriveConversationKey ("30_10".data) = historyNormChatId ("30_10".data) ∧
    deriveConversationKey ("30_10".data) =
      (if strLe (clean ("30".data)) (clean ("10".data)) then
        clean ("30".data) ++ '_' :: clean ("10".data)
       else clean ("10".data) ++ '_' :: clean ("30".data)) :=
  derive_key_commutative ("30_10".data) ("10_30".data) ("30".data) ("10".data)
    (by decide) (by decide)

/-- Claim C4 counterexample: "3_2_1" has two separators (not the two-part
shape), yet the derivation does not return it unchanged — it cleans and
sorts all three parts, yielding "1_2_3". -/
theorem multi_separator_id_normalized :
    ("3_2_1".data).count '_' = 2 ∧
    deriveConversationKey ("3_2_1".data) = ("1_2_3".data) ∧
    deriveConversationKey ("3_2_1".data) ≠ ("3_2_1".data) := by decide

/-- Claim C4 amended: only ids with no separator at all are treated as
group ids and returned unchanged; an id containing a separator — even more
than one, such as a three-part id — is split, each part cleaned, and the
parts sorted and re-joined. -/
theorem derive_key_shape_amended (rawId : Str) :
    ('_' ∉ rawId → deriveConversationKey rawId = rawId) ∧
    (∀ a b c, splitUS rawId = [a, b, c] →
      deriveConversationKey rawId =
        joinUS (sortStrs [clean a, clean b, clean c])) := by
  constructor
  · intro h
    simp [deriveConversationKey, h]
  · intro a b c h
    have hm : '_' ∈ rawId := by
      apply mem_us_of_splitUS_length
      rw [h]
      simp
    simp [deriveConversationKey, hm, h]

/-- Witness for the amended C4: "abc" (no separator) comes back verbatim,
"3_2_1" (two separators) is normalized. -/
theorem derive_key_shape_amended_witness :
    deriveConversationKey ("abc".data) = ("abc".data) ∧
    deriveConversationKey ("3_2_1".data) =
      joinUS (sortStrs [clean ("3".data), clean ("2".data), clean ("1".data)]) :=
  ⟨(derive_key_shape_amended ("abc".data)).1 (by decide),
   (derive_key_shape_amended ("3_2_1".data)).2 ("3".data) ("2".data) ("1".data)
     (by decide)⟩

/-- Claim C7: a `register` with a truthy raw id joins the raw-id room, and
additionally the cleaned-key room exactly when the cleaned key differs from
the raw id and has length 10; in particular "+919876543210" is also
reachable at "9876543210". -/
theorem register_identity_rooms_spec (rawId : Str) (h : rawId ≠ []) :
    rawId ∈ registerIdentityRooms rawId ∧
    (clean rawId ≠ rawId →
      (clean rawId ∈ registerIdentityRooms rawId ↔
        (clean rawId).length = 10)) ∧
    ("9876543210".data) ∈ registerIdentityRooms ("+919876543210".data) := by
  refine ⟨?_, ?_, by decide⟩
  · unfold registerIdentityRooms
    rw [if_neg h]
    by_cases hc : (clean rawId).length = 10 ∧ clean rawId ≠ rawId
    · rw [if_pos hc]
      exact List.mem_cons_self _ _
    · rw [if_neg hc]
      exact List.mem_cons_self _ _
  · intro hne
    unfold registerIdentityRooms
    rw [if_neg h]
    by_cases hlen : (clean rawId).length = 10
    · rw [if_pos ⟨hlen, hne⟩]
      constructor
      · intro _
        exact hlen
      · intro _
        exact List.mem_cons_of_mem _ (List.mem_cons_self _ _)
    · have hcond : ¬ ((clean rawId).length = 10 ∧ clean rawId ≠ rawId) :=
        fun hc => hlen hc.1
      rw [if_neg hcond]
      constructor
      · intro hmem
        exact absurd (List.mem_singleton.mp hmem) hne
      · intro hl
        exact absurd hl hlen

/-- Witness for C7 at rawId = "+919876543210". -/
theorem register_identity_rooms_spec_witness :
    ("+919876543210".data) ∈ registerIdentityRooms ("+919876543210".data) ∧
    (clean ("+919876543210".data) ∈ registerIdentityRooms ("+919876543210".data) ↔
      (clean ("+919876543210".data)).length = 10) :=
  ⟨(register_identity_rooms_spec ("+919876543210".data) (by decide)).1,
   (register_identity_rooms_spec ("+919876543210".data) (by decide)).2.1
     (by decide)⟩

/-- Claim C8 (the code bug): a status post whose `expiresAt` of
"2026-10-12T06:00:00.000Z" is chronologically twelve hours before the read
time "2026-10-12 18:00:00" is still returned by the listing.  The WHERE
clause compares the two texts bytewise; they share the UTC date, so the
comparison is decided at index 10, where the ISO `'T'` exceeds SQLite's
`' '` — every same-UTC-day `expiresAt`, past or future, compares greater
than `CURRENT_TIMESTAMP`, so the expired post is not excluded as the claim
requires. -/
theorem status_listing_same_day_expired_shown :
    specChronoLt ("2026-10-12T06:00:00.000Z".data)
      ("2026-10-12 18:00:00".data) = true ∧
    strLt ("2026-10-12 18:00:00".data)
      ("2026-10-12T06:00:00.000Z".data) = true ∧
    (⟨1, [], [], ("2026-10-11 06:00:00".data),
        ("2026-10-12T06:00:00.000Z".data)⟩ : StatusRow) ∈
      getStatusRows
        [⟨1, [], [], ("2026-10-11 06:00:00".data),
          ("2026-10-12T06:00:00.000Z".data)⟩]
        ("2026-10-12 18:00:00".data) := by decide

/-- Claim C3 counterexample: for the two-part id
"+919876543210_+919123456789" the canonical conversation id is
"9123456789_9876543210", but the dispatch emits to the raw room, the
reversed raw room, the receiver key and the sender key — never to the
canonical conversation room. -/
theorem private_fanout_misses_canonical_room :
    deriveConversationKey ("+919876543210_+919123456789".data) =
      ("9123456789_9876543210".data) ∧
    deriveConversationKey ("+919876543210_+919123456789".data) ∉
      (sendMessage ⟨[], []⟩ true 1 ("+919876543210_+919123456789".data)
        ("+919876543210".data) ("hi".data)).emissions := by decide

/-- Claim C3 amended: the private fanout targets are exactly (a) the room
named by the raw chat id as supplied (not the canonical id), (b) the room
named with the raw parts in reversed order, (c) the first cleaned part
that differs from the cleaned sender, when it exists and is non-empty, and
(d) the cleaned sender; the persisted row, by contrast, carries the
canonical conversation id. -/
theorem private_fanout_targets (st : ServerState) (lastID : Nat)
    (chatId sender text p0 p1 : Str)
    (hc : chatId ≠ []) (hsend : sender ≠ [])
    (hsplit : splitUS chatId = [p0, p1]) :
    (sendMessage st true lastID chatId sender text).stored =
      some ⟨lastID, deriveConversationKey chatId, sender, text⟩ ∧
    (sendMessage st true lastID chatId sender text).emissions =
      [chatId, p1 ++ '_' :: p0] ++
        (if clean p0 ≠ clean sender then
          (if clean p0 = [] then [] else [clean p0])
         else if clean p1 ≠ clean sender then
          (if clean p1 = [] then [] else [clean p1])
         else []) ++ [clean sender] := by
  have hval : ¬ (chatId = [] ∨ sender = []) := by
    rintro (h | h)
    · exact hc h
    · exact hsend h
  constructor
  · simp [sendMessage, hval, dispatchRooms, hsplit]
  · simp [sendMessage, hval, dispatchRooms, hsplit, privateEmits,
      receiverEmit_eq]

/-- Witness for the amended C3 at chatId "30_10", sender "30". -/
theorem private_fanout_targets_witness :
    (sendMessage ⟨[], []⟩ true 1 ("30_10".data) ("30".data) ("t".data)).stored =
      some ⟨1, deriveConversationKey ("30_10".data), ("30".data), ("t".data)⟩ ∧
    (sendMessage ⟨[], []⟩ true 1 ("30_10".data) ("30".data) ("t".data)).emissions =
      [("30_10".data), ("10".data) ++ '_' :: ("30".data)] ++
        (if clean ("30".data) ≠ clean ("30".data) then
          (if clean ("30".data) = [] then [] else [clean ("30".data)])
         else if clean ("10".data) ≠ clean ("30".data) then
          (if clean ("10".data) = [] then [] else [clean ("10".data)])
         else []) ++ [clean ("30".data)] :=
  private_fanout_targets ⟨[], []⟩ 1 ("30_10".data) ("30".data) ("t".data)
    ("30".data) ("10".data) (by decide) (by decide) (by decide)

/-- Claim C9: on a self-chat (both parts of the two-part id clean to the
sender's own key) the receiver lookup finds no participant distinct from
the sender, so the receiver-alias emission is skipped; the message is still
persisted and still emitted to the raw chat room, the reversed-order room,
and the cleaned sender key. -/
theorem self_chat_fanout (st : ServerState) (lastID : Nat)
    (chatId sender text p0 p1 : Str)
    (hc : chatId ≠ []) (hsend : sender ≠ [])
    (hsplit : splitUS chatId = [p0, p1])
    (h0 : clean p0 = clean sender) (h1 : clean p1 = clean sender) :
    (sendMessage st true lastID chatId sender text).stored =
      some ⟨lastID, deriveConversationKey chatId, sender, text⟩ ∧
    (sendMessage st true lastID chatId sender text).emissions =
      [chatId, p1 ++ '_' :: p0, clean sender] := by
  have hval : ¬ (chatId = [] ∨ sender = []) := by
    rintro (h | h)
    · exact hc h
    · exact hsend h
  constructor
  · simp [sendMessage, hval, dispatchRooms, hsplit]
  · simp [sendMessage, hval, dispatchRooms, hsplit, privateEmits,
      receiverEmit_eq, h0, h1]

/-- Witness for C9 at the self-chat "123_123" sent by "123". -/
theorem self_chat_fanout_witness :
    (sendMessage ⟨[], []⟩ true 1 ("123_123".data) ("123".data) ("t".data)).stored =
      some ⟨1, deriveConversationKey ("123_123".data), ("123".data), ("t".data)⟩ ∧
    (sendMessage ⟨[], []⟩ true 1 ("123_123".data) ("123".data) ("t".data)).emissions =
      [("123_123".data), ("123".data) ++ '_' :: ("123".data), clean ("123".data)] :=
  self_chat_fanout ⟨[], []⟩ 1 ("123_123".data) ("123".data) ("t".data)
    ("123".data) ("123".data) (by decide) (by decide) (by decide) (by decide)
    (by decide)

/-- Claim C2 counterexample: a non-admin post to the private group "g1"
(creator "+919876543210", sender "9123456789" holding no membership row) is
blocked, yet the dispatch emits the message to the creator's raw and
cleaned rooms — connections other than the sender's receive it. -/
theorem private_group_block_emits_creator :
    (sendMessage ⟨[⟨"g1".data, "private".data, "+919876543210".data⟩], []⟩
        true 1 ("g1".data) ("9123456789".data) ("hi".data)).emissions =
      [("+919876543210".data), ("9876543210".data)] ∧
    ("+919876543210".data) ≠ ("9123456789".data) ∧
    ("+919876543210".data) ≠ clean ("9123456789".data) ∧
    ("9876543210".data) ≠ ("9123456789".data) ∧
    ("9876543210".data) ≠ clean ("9123456789".data) := by decide

/-- Claim C2 amended: a `send_message` into a `private`-visibility group by
a sender whose first membership row is absent or not `admin` aborts before
the group fanout: the group room and the member rooms receive nothing, and
the only emissions are the creator-legacy ones (raw and cleaned creator
key) sent before the permission check.  The message is nevertheless
persisted (the known §9 inconsistency), and the sending socket has been
force-joined to the group room. -/
theorem private_group_block_amended (st : ServerState) (lastID : Nat)
    (chatId sender text : Str) (g : GroupRow)
    (hc : chatId ≠ []) (hsend : sender ≠ [])
    (hlen : (splitUS chatId).length ≠ 2)
    (hg : st.groups.find? (fun g2 => g2.id == chatId) = some g)
    (hpriv : g.type = ('p' :: 'r' :: 'i' :: 'v' :: 'a' :: 't' :: 'e' :: []))
    (hrole : ∀ m : MemberRow,
      st.members.find?
          (fun m2 => m2.groupId == chatId && m2.userId == clean sender) =
        some m →
      ¬ m.role = ('a' :: 'd' :: 'm' :: 'i' :: 'n' :: [])) :
    (sendMessage st true lastID chatId sender text).joins = [chatId] ∧
    (sendMessage st true lastID chatId sender text).emissions =
      creatorPreEmits (some g) ∧
    (sendMessage st true lastID chatId sender text).stored =
      some ⟨lastID, deriveConversationKey chatId, sender, text⟩ := by
  have hval : ¬ (chatId = [] ∨ sender = []) := by
    rintro (h | h)
    · exact hc h
    · exact hsend h
  have hblock : isBlocked st chatId sender (some g) = true := by
    show (if g.type = ('p' :: 'r' :: 'i' :: 'v' :: 'a' :: 't' :: 'e' :: []) then
        match st.members.find?
            (fun m => m.groupId == chatId && m.userId == clean sender) with
        | some m => !(m.role == ('a' :: 'd' :: 'm' :: 'i' :: 'n' :: []))
        | none => true
      else false) = true
    rw [if_pos hpriv]
    cases hfm : st.members.find?
        (fun m => m.groupId == chatId && m.userId == clean sender) with
    | none => rfl
    | some m =>
      have hm := hrole m hfm
      simp [hm]
  have hdr : dispatchRooms st chatId sender =
      ([chatId], groupEmits st chatId sender) := by
    unfold dispatchRooms
    cases hsp : splitUS chatId with
    | nil => rfl
    | cons x xs =>
      cases xs with
      | nil => rfl
      | cons y ys =>
        cases ys with
        | nil =>
          exfalso
          apply hlen
          rw [hsp]
          rfl
        | cons z zs => rfl
  have hemit : groupEmits st chatId sender = creatorPreEmits (some g) := by
    unfold groupEmits
    rw [hg, hblock]
    simp
  refine ⟨?_, ?_, ?_⟩ <;> simp [sendMessage, hval, hdr, hemit]

/-- Witness for the amended C2: private group "g2" created by "111",
message from non-member "222". -/
theorem private_group_block_amended_witness :
    (sendMessage ⟨[⟨"g2".data, "private".data, "111".data⟩], []⟩ true 1
        ("g2".data) ("222".data) ("t".data)).joins = [("g2".data)] ∧
    (sendMessage ⟨[⟨"g2".data, "private".data, "111".data⟩], []⟩ true 1
        ("g2".data) ("222".data) ("t".data)).emissions =
      creatorPreEmits (some ⟨"g2".data, "private".data, "111".data⟩) ∧
    (sendMessage ⟨[⟨"g2".data, "private".data, "111".data⟩], []⟩ true 1
        ("g2".data) ("222".data) ("t".data)).stored =
      some ⟨1, deriveConversationKey ("g2".data), ("222".data), ("t".data)⟩ :=
  private_group_block_amended
    ⟨[⟨"g2".data, "private".data, "111".data⟩], []⟩ 1
    ("g2".data) ("222".data) ("t".data)
    ⟨"g2".data, "private".data, "111".data⟩
    (by decide) (by decide) (by decide) (by decide) (by decide)
    (fun m h => by rw [List.find?_nil] at h; exact Option.noConfusion h)

/-- Claim C10: a `send_message` whose chat id contains no separator takes
the group branch, whose first action force-joins the sending socket to the
raw chat-id room — for every server state, so in particular also when the
sender is no member of the group and when the message is then blocked as a
non-admin post to a private group. -/
theorem group_send_force_join (st : ServerState) (lastID : Nat)
    (chatId sender text : Str)
    (hc : chatId ≠ []) (hsend : sender ≠ []) (hnosep : '_' ∉ chatId) :
    (sendMessage st true lastID chatId sender text).joins = [chatId] := by
  have hval : ¬ (chatId = [] ∨ sender = []) := by
    rintro (h | h)
    · exact hc h
    · exact hsend h
  have hdr : dispatchRooms st chatId sender =
      ([chatId], groupEmits st chatId sender) := by
    unfold dispatchRooms
    rw [splitUS_no_sep chatId hnosep]
  simp [sendMessage, hval, hdr]

/-- Witness for C10: a send into "g1" by a non-member of a private group
still joins the "g1" room. -/
theorem group_send_force_join_witness :
    (sendMessage ⟨[⟨"g1".data, "private".data, "111".data⟩], []⟩ true 1
        ("g1".data) ("222".data) ("t".data)).joins = [("g1".data)] :=
  group_send_force_join ⟨[⟨"g1".data, "private".data, "111".data⟩], []⟩ 1
    ("g1".data) ("222".data) ("t".data) (by decide) (by decide) (by decide)

/-- Claim C6 counterexample: when the insert fails the dispatch indeed
performs no fanout, but nothing is reported to the triggering caller
either — there is no emission at all, in particular none to the sender's
alias rooms; the failure is only logged. -/
theorem persist_failure_not_reported :
    (sendMessage ⟨[], []⟩ false 1 ("111_222".data) ("1112223333".data)
        ("hi".data)).stored = none ∧
    (sendMessage ⟨[], []⟩ false 1 ("111_222".data) ("1112223333".data)
        ("hi".data)).emissions = [] ∧
    specFailureReportedToCaller
      (sendMessage ⟨[], []⟩ false 1 ("111_222".data) ("1112223333".data)
        ("hi".data)) ("1112223333".data) = false := by decide

/-- Claim C6 amended: a persistence failure aborts the dispatch with no
fanout at all — nothing stored, no room joined, zero emissions — and the
failure is only logged server-side, so no delivery-failure report reaches
the triggering caller. -/
theorem persist_failure_no_fanout (st : ServerState) (lastID : Nat)
    (chatId sender text : Str) :
    sendMessage st false lastID chatId sender text = ⟨none, [], []⟩ ∧
    specFailureReportedToCaller
      (sendMessage st false lastID chatId sender text) sender = false := by
  have h1 : sendMessage st false lastID chatId sender text = ⟨none, [], []⟩ := by
    by_cases h : chatId = [] ∨ sender = [] <;> simp [sendMessage, h]
  refine ⟨h1, ?_⟩
  rw [h1]
  rfl

/-- Claim C5 counterexample: when the creator appears in the supplied
member list with `isAdmin: false`, the creator's only membership row has
role `'member'` — the explicit admin insert is skipped because the creator
was "already processed". -/
theorem creator_listed_nonadmin_gets_member_role :
    createGroupRows ("g1".data) ("9876543210".data)
        [⟨"9876543210".data, false⟩] =
      [⟨("g1".data), ("9876543210".data),
        'm' :: 'e' :: 'm' :: 'b' :: 'e' :: 'r' :: []⟩] ∧
    (createGroupRows ("g1".data) ("9876543210".data)
        [⟨"9876543210".data, false⟩]).any
      (fun r => r.role == ('a' :: 'd' :: 'm' :: 'i' :: 'n' :: [])) = false := by
  decide

/-- Claim C5 amended: after `create_group` with a truthy creator id the
creator's cleaned key always holds a membership row for the group; that row
has role `admin` whenever no supplied member cleans to the creator's key
(in particular when the creator was omitted from the member list), while a
creator who does appear in the member list gets the role its entry's
`isAdmin` flag dictates — `member` when the flag is false. -/
theorem create_group_creator_membership (safeId createdBy : Str)
    (members : List MemberSpec) (hcb : createdBy ≠ []) :
    (∃ role : Str, (⟨safeId, clean createdBy, role⟩ : MembershipRow) ∈
        createGroupRows safeId createdBy members) ∧
    ((∀ m ∈ members, clean m.id ≠ clean createdBy) →
      (⟨safeId, clean createdBy,
          'a' :: 'd' :: 'm' :: 'i' :: 'n' :: []⟩ : MembershipRow) ∈
        createGroupRows safeId createdBy members) ∧
    (∀ m ∈ members,
      (⟨safeId, clean m.id, memberRole m⟩ : MembershipRow) ∈
        createGroupRows safeId createdBy members) := by
  unfold createGroupRows
  rw [if_neg hcb]
  by_cases hany : members.any (fun m => clean m.id == clean createdBy) = true
  · rw [if_pos hany]
    rcases List.any_eq_true.mp hany with ⟨m, hm, he⟩
    have he2 : clean m.id = clean createdBy := by simpa using he
    refine ⟨⟨memberRole m, ?_⟩, ?_, ?_⟩
    · rw [← he2]
      exact List.mem_map.mpr ⟨m, hm, rfl⟩
    · intro hall
      exact absurd he2 (hall m hm)
    · intro m2 hm2
      exact List.mem_map.mpr ⟨m2, hm2, rfl⟩
  · rw [if_neg hany]
    refine ⟨⟨'a' :: 'd' :: 'm' :: 'i' :: 'n' :: [],
        List.mem_append_right _ (List.mem_singleton.mpr rfl)⟩, ?_, ?_⟩
    · intro _
      exact List.mem_append_right _ (List.mem_singleton.mpr rfl)
    · intro m2 hm2
      exact List.mem_append_left _ (List.mem_map.mpr ⟨m2, hm2, rfl⟩)

/-- Witness for the amended C5: creator "111" omitted from an empty member
list still gets an admin membership row. -/
theorem create_group_creator_membership_witness :
    (⟨("g1".data), clean ("111".data),
        'a' :: 'd' :: 'm' :: 'i' :: 'n' :: []⟩ : MembershipRow) ∈
      createGroupRows ("g1".data) ("111".data) [] :=
  (create_group_creator_membership ("g1".data) ("111".data) []
      (by decide)).2.1
    (fun m hm => absurd hm (List.not_mem_nil m))
